import Mathlib

set_option linter.unusedVariables false

/-!
Verification development for the http-cache-semantics crate.

The crate under study declares the RFC 7234 cache policy engine: the
CacheOptions configuration, the CachePolicy type with its query methods,
and the static header and status tables.  In the source, policy_for
builds a CachePolicy value but every query method body is the
unimplemented macro, which panics.  This file embeds the code that does
exist (the configuration, the constants and the stubbed methods) and, for
the behaviour that the source declares but does not implement, models the
specified algorithms so that the documented properties can be stated and
settled against them.

Dates are modelled as integer timestamps in seconds: the test suite of
the crate formats date headers as plain integer strings, and the
specification treats date parsing as an abstract resolver, so an integer
parse stands in for HTTP-date parsing throughout.
-/

/-! Character and string utilities, written structurally so that every
definition reduces in the kernel. -/

def isSpaceChar (c : Char) : Bool :=
  c = ' ' || c = '\t' || c = '\n' || c = '\r'

def trimChars (l : List Char) : List Char :=
  ((l.dropWhile isSpaceChar).reverse.dropWhile isSpaceChar).reverse

def splitCommaAux : List Char → List Char → List (List Char)
  | [], cur => [cur.reverse]
  | c :: rest, cur =>
    if c = ',' then cur.reverse :: splitCommaAux rest []
    else splitCommaAux rest (c :: cur)

def splitComma (l : List Char) : List (List Char) :=
  splitCommaAux l []

def splitFirstEqAux : List Char → List Char → List Char × Option (List Char)
  | [], acc => (acc.reverse, none)
  | c :: rest, acc =>
    if c = '=' then (acc.reverse, some rest)
    else splitFirstEqAux rest (c :: acc)

def splitFirstEq (l : List Char) : List Char × Option (List Char) :=
  splitFirstEqAux l []

def lowerChar (c : Char) : Char :=
  if 'A' ≤ c && c ≤ 'Z' then Char.ofNat (c.toNat + 32) else c

def lowerStr (s : String) : String :=
  String.mk (s.data.map lowerChar)

def natOfCharsAux : List Char → Nat → Option Nat
  | [], acc => some acc
  | c :: rest, acc =>
    if c.isDigit then natOfCharsAux rest (acc * 10 + (c.toNat - 48)) else none

def natOfChars (l : List Char) : Option Nat :=
  match l with
  | [] => none
  | _ => natOfCharsAux l 0

def intOfChars (l : List Char) : Option Int :=
  match l with
  | [] => none
  | '-' :: rest => (natOfChars rest).map (fun n => -(n : Int))
  | _ => (natOfChars l).map (fun n => (n : Int))

def stripQuotes (l : List Char) : List Char :=
  match l with
  | '"' :: rest =>
    if rest.getLast? = some '"' then rest.dropLast else '"' :: rest
  | _ => l

/-! Header maps.  Header names are case-insensitive in HTTP; the model
stores them lowercased, as the specification prescribes for the header
container, and looks up the first entry with a matching name. -/

abbrev Headers := List (String × String)

def getHeader (hs : Headers) (name : String) : Option String :=
  match hs with
  | [] => none
  | h :: t => if h.1 == name then some h.2 else getHeader t name

def getEntry (hs : Headers) (name : String) : Option (String × String) :=
  match hs with
  | [] => none
  | h :: t => if h.1 == name then some h else getEntry t name

structure HttpRequest where
  method : String
  uri : String
  headers : Headers
deriving DecidableEq

structure HttpResponse where
  status : Nat
  headers : Headers
deriving DecidableEq

/-! The configuration structure, embedded from the source.  The source
stores cache_heuristic as a 32-bit float used only as a stored fraction;
it is embedded as a rational number, with the default literal 0.1
becoming 1/10. -/

structure CacheOptions where
  shared : Bool
  ignore_cargo_cult : Bool
  trust_server_date : Bool
  cache_heuristic : ℚ
  immutable_min_time_to_live : Nat
deriving DecidableEq

def CacheOptions.default : CacheOptions :=
  { shared := true
    ignore_cargo_cult := false
    trust_server_date := true
    cache_heuristic := 1/10
    immutable_min_time_to_live := 86400 }

/-! Static tables embedded from the source.  Note that the source writes
the entry proxy-authentication, not proxy-authenticate. -/

def STATUS_CODE_CACHEABLE_BY_DEFAULT : List Nat :=
  [200, 203, 204, 206, 300, 301, 404, 405, 410, 414, 501]

def UNDERSTOOD_STATUSES : List Nat :=
  [200, 203, 204, 300, 301, 302, 303, 307, 308, 404, 405, 410, 414, 501]

def HOP_BY_HOP_HEADERS : List String :=
  ["date", "connection", "keep-alive", "proxy-authentication",
   "proxy-authorization", "te", "trailer", "transfer-encoding", "upgrade"]

def EXCLUDED_FROM_REVALIDATION_UPDATE : List String :=
  ["content-length", "content-encoding", "transfer-encoding", "content-range"]

/-! Embedding of the code as written: policy_for constructs the unit
CachePolicy value, and every query method body is the unimplemented
macro, which diverges by panicking.  Divergence is made observable with
an explicit panic-or-return type. -/

inductive PanicOr (α : Type) : Type where
  | panics : PanicOr α
  | returns : α → PanicOr α
deriving DecidableEq

namespace Code

inductive CachePolicy : Type where
  | mk : CachePolicy
deriving DecidableEq

def policy_for (opts : CacheOptions) (request : HttpRequest)
    (response : HttpResponse) : PanicOr CachePolicy :=
  PanicOr.returns CachePolicy.mk

def is_storable (p : CachePolicy) : PanicOr Bool :=
  PanicOr.panics

def time_to_live (p : CachePolicy) : PanicOr Nat :=
  PanicOr.panics

def is_cached_response_fresh (p : CachePolicy) (new_request : HttpRequest)
    (cached_response : HttpResponse) : PanicOr Bool :=
  PanicOr.panics

def is_cached_response_valid (p : CachePolicy) (new_request : HttpRequest)
    (cached_response : HttpResponse) (new_response : HttpResponse) :
    PanicOr (Bool × CachePolicy) :=
  PanicOr.panics

def update_response_headers (p : CachePolicy) (headers : HttpResponse) :
    PanicOr HttpResponse :=
  PanicOr.panics

def is_stale (p : CachePolicy) : PanicOr Bool :=
  PanicOr.panics

def age (p : CachePolicy) : PanicOr Nat :=
  PanicOr.panics

def max_age (p : CachePolicy) : PanicOr Nat :=
  PanicOr.panics

def response_headers (p : CachePolicy) : PanicOr Headers :=
  PanicOr.panics

def revalidation_headers (p : CachePolicy) (request : HttpRequest) :
    PanicOr Headers :=
  PanicOr.panics

end Code

/-! Model of the specified engine.  The source declares each of the
following operations but leaves the body unimplemented, so the
definitions below are built from the specification text and are the
reference against which the documented properties are settled. -/

namespace Spec

/-- Modelled from the spec: the directive list produced by the
Cache-Control tokenizer of section 4.1; src only declares the methods
that would consume it.  Tokens are comma-split, trimmed, split at the
first equals sign, the name lowercased, one layer of double quotes
stripped from the value, and empty tokens dropped. -/
def parseDirToken (t : List Char) : Option (String × Option String) :=
  let t := trimChars t
  if t.isEmpty then none
  else
    let nv := splitFirstEq t
    some (lowerStr (String.mk (trimChars nv.1)),
          nv.2.map (fun w => String.mk (stripQuotes (trimChars w))))

def parseCacheControl (v : String) : List (String × Option String) :=
  (splitComma v.data).filterMap parseDirToken

def dirValue (cc : List (String × Option String)) (name : String) :
    Option (Option String) :=
  match cc with
  | [] => none
  | d :: t => if d.1 == name then some d.2 else dirValue t name

def hasDir (cc : List (String × Option String)) (name : String) : Bool :=
  (dirValue cc name).isSome

def dirNat (cc : List (String × Option String)) (name : String) : Option Nat :=
  match dirValue cc name with
  | some (some v) => natOfChars v.data
  | _ => none

/-- Modelled from the spec: the policy value of section 3, a snapshot of
the originating request, the response, the reception instant and the
options; src declares CachePolicy without any fields. -/
structure CachePolicy where
  req : HttpRequest
  resp : HttpResponse
  response_time : Int
  opts : CacheOptions
deriving DecidableEq

def policy_for (opts : CacheOptions) (req : HttpRequest) (resp : HttpResponse)
    (response_time : Int) : CachePolicy :=
  { req := req, resp := resp, response_time := response_time, opts := opts }

def reqCC (p : CachePolicy) : List (String × Option String) :=
  parseCacheControl ((getHeader p.req.headers "cache-control").getD "")

def rawRespCC (p : CachePolicy) : List (String × Option String) :=
  parseCacheControl ((getHeader p.resp.headers "cache-control").getD "")

def CARGO_REMOVED : List String :=
  ["pre-check", "post-check", "no-cache", "no-store"]

/-- Modelled from the spec: the cargo-cult exception of section 4.3
fires when the option is set and both pre-check and post-check occur in
the response Cache-Control. -/
def cargoCultFired (p : CachePolicy) : Bool :=
  p.opts.ignore_cargo_cult && hasDir (rawRespCC p) "pre-check"
    && hasDir (rawRespCC p) "post-check"

/-- Modelled from the spec: the internal view of the response directives
after the cargo-cult removal of section 4.3. -/
def respCC (p : CachePolicy) : List (String × Option String) :=
  if cargoCultFired p then
    (rawRespCC p).filter (fun d => !(CARGO_REMOVED.contains d.1))
  else rawRespCC p

def hasExplicit (p : CachePolicy) : Bool :=
  (getHeader p.resp.headers "expires").isSome
    || hasDir (respCC p) "max-age"
    || hasDir (respCC p) "s-maxage"
    || hasDir (respCC p) "public"

def methodStorable (p : CachePolicy) : Bool :=
  p.req.method == "GET" || p.req.method == "HEAD"
    || (p.req.method == "POST" && hasExplicit p)

/-- Modelled from the spec: the storability evaluator of section 4.3;
the is_storable body in src is the unimplemented macro. -/
def is_storable (p : CachePolicy) : Bool :=
  !( !(methodStorable p)
   || hasDir (reqCC p) "no-store"
   || hasDir (respCC p) "no-store"
   || (p.opts.shared && hasDir (respCC p) "private")
   || (p.opts.shared && (getHeader p.req.headers "authorization").isSome
        && !(hasDir (respCC p) "public")
        && !(hasDir (respCC p) "must-revalidate")
        && !(hasDir (respCC p) "s-maxage"))
   || (!(STATUS_CODE_CACHEABLE_BY_DEFAULT.contains p.resp.status)
        && !(hasExplicit p))
   || (p.resp.status == 206)
   || (p.opts.shared && (getHeader p.resp.headers "set-cookie").isSome
        && !(hasDir (respCC p) "public")
        && !(hasDir (respCC p) "immutable")))

/-- Modelled from the spec: HTTP-date resolution abstracted to integer
second timestamps, matching the integer date strings used by the test
suite in src. -/
def parseHttpDate (s : String) : Option Int :=
  intOfChars s.data

def server_date (p : CachePolicy) : Int :=
  if p.opts.trust_server_date then
    match (getHeader p.resp.headers "date").bind parseHttpDate with
    | some d => d
    | none => p.response_time
  else p.response_time

def age_value (p : CachePolicy) : Nat :=
  match (getHeader p.resp.headers "age").bind (fun v => natOfChars v.data) with
  | some n => n
  | none => 0

/-- Modelled from the spec: the corrected age of section 4.2.3 with the
response delay taken as zero, since the request time is not tracked. -/
def current_age (p : CachePolicy) (now : Int) : Int :=
  let apparent : Int := max 0 (p.response_time - server_date p)
  let initial : Int := max apparent (age_value p : Int)
  initial + (now - p.response_time)

/-- Modelled from the spec: the explicit freshness value of section 4.4
steps 3 and 4, honoring s-maxage only for a shared cache. -/
def explicitAge (p : CachePolicy) : Option Nat :=
  if p.opts.shared then
    match dirNat (respCC p) "s-maxage" with
    | some n => some n
    | none => dirNat (respCC p) "max-age"
  else dirNat (respCC p) "max-age"

def heuristicFreshness (p : CachePolicy) : Nat :=
  match (getHeader p.resp.headers "last-modified").bind parseHttpDate with
  | some lm =>
    (Int.floor (((server_date p - lm : Int) : ℚ) * p.opts.cache_heuristic)).toNat
  | none => 0

/-- Modelled from the spec: section 4.4 steps 5 to 7, the freshness
taken from Expires when present and otherwise from the heuristic. -/
def implicitAge (p : CachePolicy) : Nat :=
  match getHeader p.resp.headers "expires" with
  | some e =>
    match parseHttpDate e with
    | some t => (max 0 (t - server_date p)).toNat
    | none => 0
  | none => heuristicFreshness p

/-- Modelled from the spec: the freshness lifetime of section 4.4; the
max_age body in src is the unimplemented macro.  The immutable floor
applies only when no explicit max-age or s-maxage value is taken. -/
def max_age (p : CachePolicy) : Nat :=
  if hasDir (respCC p) "no-cache" || hasDir (respCC p) "no-store" then 0
  else if hasDir (reqCC p) "no-cache" then 0
  else
    match explicitAge p with
    | some n => n
    | none =>
      let base := implicitAge p
      if hasDir (respCC p) "immutable" then
        max base p.opts.immutable_min_time_to_live
      else base

def time_to_live (p : CachePolicy) (now : Int) : Int :=
  max 0 ((max_age p : Int) - current_age p now)

def is_stale (p : CachePolicy) (now : Int) : Bool :=
  time_to_live p now == 0

def varyFields (p : CachePolicy) : List String :=
  match getHeader p.resp.headers "vary" with
  | none => []
  | some v =>
    (splitComma v.data).filterMap (fun t =>
      let t := trimChars t
      if t.isEmpty then none else some (lowerStr (String.mk t)))

/-- Modelled from the spec: the Vary check of section 4.5; a star entry
is an automatic mismatch, every other listed field must agree between
the stored request and the new request, absence matching absence. -/
def varyOk (p : CachePolicy) (nr : HttpRequest) : Bool :=
  (varyFields p).all (fun f =>
    f != "*" && (getHeader nr.headers f == getHeader p.req.headers f))

def methodMatch (p : CachePolicy) (nr : HttpRequest) : Bool :=
  nr.method == p.req.method || (nr.method == "HEAD" && p.req.method == "GET")

def hostMatch (p : CachePolicy) (nr : HttpRequest) : Bool :=
  match getHeader nr.headers "host", getHeader p.req.headers "host" with
  | some a, some b => a == b
  | _, _ => true

def newReqCC (nr : HttpRequest) : List (String × Option String) :=
  parseCacheControl ((getHeader nr.headers "cache-control").getD "")

def requestNoCache (nr : HttpRequest) : Bool :=
  hasDir (newReqCC nr) "no-cache"
    || hasDir (parseCacheControl ((getHeader nr.headers "pragma").getD ""))
         "no-cache"

def mustRevalidate (p : CachePolicy) : Bool :=
  hasDir (respCC p) "must-revalidate"
    || (p.opts.shared && hasDir (respCC p) "proxy-revalidate")

/-- Modelled from the spec: the client max-stale grant of section 4.5;
it never applies when the response requires revalidation. -/
def maxStaleAllows (p : CachePolicy) (nr : HttpRequest) (now : Int) : Bool :=
  match dirValue (newReqCC nr) "max-stale" with
  | some none => true
  | some (some v) =>
    match natOfChars v.data with
    | some n => decide (current_age p now - (max_age p : Int) ≤ (n : Int))
    | none => false
  | none => false

/-- Modelled from the spec: the match evaluator of section 4.5; the
is_cached_response_fresh body in src is the unimplemented macro. -/
def is_cached_response_fresh (p : CachePolicy) (nr : HttpRequest)
    (now : Int) : Bool :=
  methodMatch p nr
    && (nr.uri == p.req.uri)
    && hostMatch p nr
    && varyOk p nr
    && !(requestNoCache nr)
    && (match dirNat (newReqCC nr) "min-fresh" with
        | some n => decide ((n : Int) ≤ time_to_live p now)
        | none => true)
    && (match dirNat (newReqCC nr) "max-age" with
        | some n => decide (current_age p now ≤ (n : Int))
        | none => true)
    && (!(is_stale p now) || (!(mustRevalidate p) && maxStaleAllows p nr now))

/-- Modelled from the spec: the methods considered unsafe for weak
validators in section 4.6. -/
def UNSAFE_METHODS : List String :=
  ["POST", "PUT", "DELETE", "PATCH"]

def isWeakTag (t : String) : Bool :=
  match t.data with
  | 'W' :: '/' :: _ => true
  | _ => false

def etagList (v : String) : List String :=
  (splitComma v.data).filterMap (fun t =>
    let t := trimChars t
    if t.isEmpty then none else some (String.mk t))

def reqEtags (nr : HttpRequest) : List String :=
  match getHeader nr.headers "if-none-match" with
  | some v => etagList v
  | none => []

def storedEtag (p : CachePolicy) : List String :=
  match getHeader p.resp.headers "etag" with
  | some e => [e]
  | none => []

/-- Modelled from the spec: validators are emitted only under the
method, URI, host and Vary preconditions of section 4.6 step 2. -/
def validatorsAllowed (p : CachePolicy) (nr : HttpRequest) : Bool :=
  methodMatch p nr && (nr.uri == p.req.uri) && hostMatch p nr && varyOk p nr

/-- Modelled from the spec: the merged entity-tag set of section 4.6
step 4, with weak tags dropped for unsafe methods. -/
def mergedEtags (p : CachePolicy) (nr : HttpRequest) : List String :=
  let merged := reqEtags nr ++ storedEtag p
  if UNSAFE_METHODS.contains nr.method then
    merged.filter (fun t => !(isWeakTag t))
  else merged

def strippedBase (nr : HttpRequest) : Headers :=
  nr.headers.filter (fun h => !(HOP_BY_HOP_HEADERS.contains h.1))

def strippedBase2 (nr : HttpRequest) : Headers :=
  (strippedBase nr).filter (fun h =>
    h.1 != "if-none-match" && h.1 != "if-modified-since")

def inmPart (p : CachePolicy) (nr : HttpRequest) : Headers :=
  if (mergedEtags p nr).isEmpty then []
  else [("if-none-match", String.intercalate ", " (mergedEtags p nr))]

def imsPart (p : CachePolicy) (nr : HttpRequest) : Headers :=
  match getHeader p.resp.headers "last-modified" with
  | some lm =>
    if nr.method == "POST" || (getHeader nr.headers "accept-ranges").isSome
    then []
    else [("if-modified-since", lm)]
  | none => []

/-- Modelled from the spec: the revalidation header builder of section
4.6; the revalidation_headers body in src is the unimplemented macro.
The new request headers are copied with the hop-by-hop table that src
does define stripped; when the preconditions disallow validators the
filtered copy is returned as is, otherwise the merged entity-tag header
and the Last-Modified validator are attached. -/
def revalidation_headers (p : CachePolicy) (nr : HttpRequest) : Headers :=
  if !(validatorsAllowed p nr) then strippedBase nr
  else strippedBase2 nr ++ inmPart p nr ++ imsPart p nr

def stripCargoTokens (v : String) : Option String :=
  let kept := (splitComma v.data).filterMap (fun t =>
    let t := trimChars t
    if t.isEmpty then none
    else
      match parseDirToken t with
      | some d => if CARGO_REMOVED.contains d.1 then none else some (String.mk t)
      | none => some (String.mk t))
  if kept.isEmpty then none else some (String.intercalate ", " kept)

/-- Modelled from the spec: the internal header view of section 4.7
after the cargo-cult removal, dropping Pragma and the removed
Cache-Control tokens when the exception fired. -/
def viewHeaders (p : CachePolicy) : Headers :=
  if cargoCultFired p then
    p.resp.headers.filterMap (fun h =>
      if h.1 == "pragma" then none
      else if h.1 == "cache-control" then
        (stripCargoTokens h.2).map (fun w => (h.1, w))
      else some h)
  else p.resp.headers

def warningFilteredValue (v : String) : Option String :=
  let kept := (splitComma v.data).filterMap (fun t =>
    let t := trimChars t
    if t.isEmpty then none
    else
      match natOfChars (t.takeWhile Char.isDigit) with
      | some c => if 100 ≤ c && c ≤ 199 then none else some (String.mk t)
      | none => some (String.mk t))
  if kept.isEmpty then none else some (String.intercalate ", " kept)

/-- Modelled from the spec: the header projector of section 4.7; the
response_headers body in src is the unimplemented macro.  Hop-by-hop
stripping uses the table that src does define, the Age header is
recomputed from the current age and Warning entries with a code in the
100 to 199 range are removed. -/
def response_headers (p : CachePolicy) (now : Int) : Headers :=
  let hs := viewHeaders p
  let base := hs.filter (fun h =>
    !(HOP_BY_HOP_HEADERS.contains h.1) && h.1 != "age" && h.1 != "warning")
  let warn :=
    match getHeader hs "warning" with
    | some v =>
      match warningFilteredValue v with
      | some w => [("warning", w)]
      | none => []
    | none => []
  base ++ [("age", (Int.toNat (current_age p now)).repr)] ++ warn

/-- Modelled from the spec: the validator confirmation of section 4.7,
strong entity-tag equality, or Last-Modified equality when neither side
carries an entity tag. -/
def validatorsMatch (cached newR : HttpResponse) : Bool :=
  match getHeader cached.headers "etag", getHeader newR.headers "etag" with
  | some a, some b => a == b
  | none, none =>
    match getHeader cached.headers "last-modified",
          getHeader newR.headers "last-modified" with
    | some a, some b => a == b
    | _, _ => false
  | _, _ => false

def mergeEntry (newH : Headers) (h : String × String) : String × String :=
  if EXCLUDED_FROM_REVALIDATION_UPDATE.contains h.1 then h
  else
    match getHeader newH h.1 with
    | some v => (h.1, v)
    | none => h

def mergeKeep (stored : Headers) (h : String × String) : Bool :=
  !(EXCLUDED_FROM_REVALIDATION_UPDATE.contains h.1)
    && (getHeader stored h.1).isNone

/-- Modelled from the spec: the 304 header merge of section 4.7, each
header of the new response overwrites the stored one except the
excluded set, and stored headers the new response lacks are retained. -/
def mergeHeaders (stored newH : Headers) : Headers :=
  stored.map (mergeEntry newH) ++ newH.filter (mergeKeep stored)

/-- Modelled from the spec: the revalidation result handler of section
4.7; the is_cached_response_valid body in src is the unimplemented
macro.  On a confirmed 304 the updated policy is returned next to true,
otherwise the policy is unchanged and false is returned. -/
def is_cached_response_valid (p : CachePolicy) (new_request : HttpRequest)
    (cached_response : HttpResponse) (new_response : HttpResponse)
    (now : Int) : Bool × CachePolicy :=
  if new_response.status == 304 && validatorsMatch cached_response new_response
  then
    (true,
     { p with
        resp := { p.resp with
                    headers := mergeHeaders p.resp.headers new_response.headers }
        response_time := now })
  else (false, p)

end Spec

/-! Helper lemmas about header lookup over the list operations used by
the model. -/

theorem getHeader_eq_getEntry (hs : Headers) (n : String) :
    getHeader hs n = (getEntry hs n).map (fun h => h.2) := by
  induction hs with
  | nil => rfl
  | cons h t ih =>
    by_cases hc : (h.1 == n) = true
    · simp [getHeader, getEntry, hc]
    · simp only [Bool.not_eq_true] at hc
      simp [getHeader, getEntry, hc, ih]

theorem getEntry_key (hs : Headers) (n : String) (e : String × String)
    (he : getEntry hs n = some e) : e.1 = n := by
  induction hs with
  | nil => simp [getEntry] at he
  | cons h t ih =>
    by_cases hc : (h.1 == n) = true
    · simp [getEntry, hc] at he
      subst he
      exact eq_of_beq hc
    · simp only [Bool.not_eq_true] at hc
      simp [getEntry, hc] at he
      exact ih he

theorem getEntry_map_keyfix (f : String × String → String × String)
    (hf : ∀ h, (f h).1 = h.1) (hs : Headers) (n : String) :
    getEntry (hs.map f) n = (getEntry hs n).map f := by
  induction hs with
  | nil => rfl
  | cons h t ih =>
    by_cases hc : (h.1 == n) = true
    · simp [getEntry, hc, hf]
    · simp only [Bool.not_eq_true] at hc
      simp [getEntry, hc, hf, ih]

theorem getHeader_append (a b : Headers) (n : String) :
    getHeader (a ++ b) n =
      match getHeader a n with
      | some v => some v
      | none => getHeader b n := by
  induction a with
  | nil => simp [getHeader]
  | cons h t ih =>
    by_cases hc : (h.1 == n) = true
    · simp [getHeader, hc]
    · simp only [Bool.not_eq_true] at hc
      simp [getHeader, hc, ih]

theorem getHeader_filter_pos (hs : Headers) (q : String × String → Bool)
    (n : String) (hq : ∀ h : String × String, h.1 = n → q h = true) :
    getHeader (hs.filter q) n = getHeader hs n := by
  induction hs with
  | nil => rfl
  | cons h t ih =>
    by_cases hc : (h.1 == n) = true
    · have hk : h.1 = n := eq_of_beq hc
      simp [List.filter_cons, hq h hk, getHeader, hc, ih]
    · simp only [Bool.not_eq_true] at hc
      by_cases hqh : q h = true
      · simp [List.filter_cons, hqh, getHeader, hc, ih]
      · simp only [Bool.not_eq_true] at hqh
        simp [List.filter_cons, hqh, getHeader, hc, ih]

theorem getHeader_filter_neg (hs : Headers) (q : String × String → Bool)
    (n : String) (hq : ∀ h : String × String, h.1 = n → q h = false) :
    getHeader (hs.filter q) n = none := by
  induction hs with
  | nil => rfl
  | cons h t ih =>
    by_cases hc : (h.1 == n) = true
    · have hk : h.1 = n := eq_of_beq hc
      simp [List.filter_cons, hq h hk, ih]
    · simp only [Bool.not_eq_true] at hc
      by_cases hqh : q h = true
      · simp [List.filter_cons, hqh, getHeader, hc, ih]
      · simp only [Bool.not_eq_true] at hqh
        simp [List.filter_cons, hqh, ih]

theorem getHeader_cons_ne (k v n : String) (hs : Headers)
    (h : (k == n) = false) :
    getHeader ((k, v) :: hs) n = getHeader hs n := by
  simp [getHeader, h]

theorem dirValue_filter_pos (cc : List (String × Option String))
    (q : String × Option String → Bool) (n : String)
    (hq : ∀ d : String × Option String, d.1 = n → q d = true) :
    Spec.dirValue (cc.filter q) n = Spec.dirValue cc n := by
  induction cc with
  | nil => rfl
  | cons d t ih =>
    by_cases hc : (d.1 == n) = true
    · have hk : d.1 = n := eq_of_beq hc
      simp [List.filter_cons, hq d hk, Spec.dirValue, hc, ih]
    · simp only [Bool.not_eq_true] at hc
      by_cases hqd : q d = true
      · simp [List.filter_cons, hqd, Spec.dirValue, hc, ih]
      · simp only [Bool.not_eq_true] at hqd
        simp [List.filter_cons, hqd, Spec.dirValue, hc, ih]

theorem dirValue_isSome_of_filter (cc : List (String × Option String))
    (q : String × Option String → Bool) (n : String)
    (h : (Spec.dirValue (cc.filter q) n).isSome = true) :
    (Spec.dirValue cc n).isSome = true := by
  induction cc with
  | nil => simp [Spec.dirValue] at h
  | cons d t ih =>
    by_cases hc : (d.1 == n) = true
    · simp [Spec.dirValue, hc]
    · simp only [Bool.not_eq_true] at hc
      by_cases hqd : q d = true
      · simp [List.filter_cons, hqd, Spec.dirValue, hc] at h
        simp [Spec.dirValue, hc]
        exact ih h
      · simp only [Bool.not_eq_true] at hqd
        simp [List.filter_cons, hqd] at h
        simp [Spec.dirValue, hc]
        exact ih h

/-! Lemmas relating the cargo-cult adjusted directive view to the raw
parsed Cache-Control directives. -/

theorem dirValue_respCC_eq (p : Spec.CachePolicy) (n : String)
    (hn : Spec.CARGO_REMOVED.contains n = false) :
    Spec.dirValue (Spec.respCC p) n = Spec.dirValue (Spec.rawRespCC p) n := by
  unfold Spec.respCC
  split
  · exact dirValue_filter_pos _ _ _ (fun d hd => by simp only [hd, hn]; rfl)
  · rfl

theorem hasDir_respCC_eq (p : Spec.CachePolicy) (n : String)
    (hn : Spec.CARGO_REMOVED.contains n = false) :
    Spec.hasDir (Spec.respCC p) n = Spec.hasDir (Spec.rawRespCC p) n := by
  unfold Spec.hasDir
  rw [dirValue_respCC_eq p n hn]

theorem hasDir_respCC_false (p : Spec.CachePolicy) (n : String)
    (h : Spec.hasDir (Spec.rawRespCC p) n = false) :
    Spec.hasDir (Spec.respCC p) n = false := by
  unfold Spec.hasDir at h ⊢
  unfold Spec.respCC
  split
  · cases hs : (Spec.dirValue ((Spec.rawRespCC p).filter
        (fun d => !(Spec.CARGO_REMOVED.contains d.1))) n).isSome with
    | false => rfl
    | true =>
      rw [dirValue_isSome_of_filter _ _ _ hs] at h
      exact h
  · exact h

theorem dirNat_respCC_eq (p : Spec.CachePolicy) (n : String)
    (hn : Spec.CARGO_REMOVED.contains n = false) :
    Spec.dirNat (Spec.respCC p) n = Spec.dirNat (Spec.rawRespCC p) n := by
  unfold Spec.dirNat
  rw [dirValue_respCC_eq p n hn]

/-! Characterization of the 304 header merge. -/

theorem mergeEntry_key (newH : Headers) (h : String × String) :
    (Spec.mergeEntry newH h).1 = h.1 := by
  unfold Spec.mergeEntry
  split
  · rfl
  · split <;> rfl

theorem mergeEntry_val (newH : Headers) (h : String × String) :
    (Spec.mergeEntry newH h).2 =
      if EXCLUDED_FROM_REVALIDATION_UPDATE.contains h.1 = true then h.2
      else
        match getHeader newH h.1 with
        | some v => v
        | none => h.2 := by
  unfold Spec.mergeEntry
  split
  · rfl
  · split <;> rfl

theorem getHeader_mergeHeaders (stored newH : Headers) (n : String) :
    getHeader (Spec.mergeHeaders stored newH) n =
      if EXCLUDED_FROM_REVALIDATION_UPDATE.contains n = true
      then getHeader stored n
      else
        match getHeader newH n with
        | some v => some v
        | none => getHeader stored n := by
  unfold Spec.mergeHeaders
  rw [getHeader_append]
  rw [getHeader_eq_getEntry (stored.map (Spec.mergeEntry newH)) n]
  rw [getEntry_map_keyfix (Spec.mergeEntry newH) (mergeEntry_key newH) stored n]
  cases he : getEntry stored n with
  | some e =>
    have hk : e.1 = n := getEntry_key stored n e he
    have hv : getHeader stored n = some e.2 := by
      rw [getHeader_eq_getEntry, he]; rfl
    have hmap : ((some e).map (Spec.mergeEntry newH)).map (fun h => h.2)
        = some ((Spec.mergeEntry newH e).2) := rfl
    rw [hmap, mergeEntry_val, hk, hv]
    by_cases hex : EXCLUDED_FROM_REVALIDATION_UPDATE.contains n = true
    · rw [if_pos hex, if_pos hex]
    · rw [if_neg hex, if_neg hex]
      cases hnew : getHeader newH n <;> rfl
  | none =>
    have hv : getHeader stored n = none := by
      rw [getHeader_eq_getEntry, he]; rfl
    have hmap : ((Option.none.map (Spec.mergeEntry newH)).map (fun h => h.2)
        : Option String) = none := rfl
    rw [hmap, hv]
    by_cases hex : EXCLUDED_FROM_REVALIDATION_UPDATE.contains n = true
    · rw [getHeader_filter_neg newH (Spec.mergeKeep stored) n (fun h hh => by
        unfold Spec.mergeKeep
        rw [hh, hex]
        rfl)]
      rw [if_pos hex]
    · have hex2 : EXCLUDED_FROM_REVALIDATION_UPDATE.contains n = false := by
        cases hb : EXCLUDED_FROM_REVALIDATION_UPDATE.contains n with
        | false => rfl
        | true => exact absurd hb hex
      rw [getHeader_filter_pos newH (Spec.mergeKeep stored) n (fun h hh => by
        unfold Spec.mergeKeep
        rw [hh, hex2, hv]
        rfl)]
      rw [if_neg hex]
      cases hnew : getHeader newH n <;> rfl

/-! Claim theorems. -/

/-- C1: for every options value, request and response, policy_for
returns a CachePolicy value without panicking, while every query method
on the resulting policy is an unimplemented stub that unconditionally
panics and never returns a value. -/
theorem policy_for_returns_and_all_queries_panic :
    (∀ (opts : CacheOptions) (request : HttpRequest) (response : HttpResponse),
      Code.policy_for opts request response
        = PanicOr.returns Code.CachePolicy.mk)
  ∧ (∀ p, Code.is_storable p = PanicOr.panics)
  ∧ (∀ p, Code.time_to_live p = PanicOr.panics)
  ∧ (∀ p nr cr, Code.is_cached_response_fresh p nr cr = PanicOr.panics)
  ∧ (∀ p nr cr nresp,
      Code.is_cached_response_valid p nr cr nresp = PanicOr.panics)
  ∧ (∀ p hs, Code.update_response_headers p hs = PanicOr.panics)
  ∧ (∀ p, Code.is_stale p = PanicOr.panics)
  ∧ (∀ p, Code.age p = PanicOr.panics)
  ∧ (∀ p, Code.max_age p = PanicOr.panics)
  ∧ (∀ p, Code.response_headers p = PanicOr.panics)
  ∧ (∀ p r, Code.revalidation_headers p r = PanicOr.panics) :=
  ⟨fun _ _ _ => rfl, fun _ => rfl, fun _ => rfl, fun _ _ _ => rfl,
   fun _ _ _ _ => rfl, fun _ _ => rfl, fun _ => rfl, fun _ => rfl,
   fun _ => rfl, fun _ => rfl, fun _ _ => rfl⟩

/-- C10: the default configuration has shared true, ignore_cargo_cult
false, trust_server_date true, cache_heuristic one tenth and
immutable_min_time_to_live 86400 seconds. -/
theorem default_options_values :
    CacheOptions.default.shared = true
  ∧ CacheOptions.default.ignore_cargo_cult = false
  ∧ CacheOptions.default.trust_server_date = true
  ∧ CacheOptions.default.cache_heuristic = 1/10
  ∧ CacheOptions.default.immutable_min_time_to_live = 86400 :=
  ⟨rfl, rfl, rfl, rfl, rfl⟩

/-- C2: for a shared cache, a request carrying Authorization makes the
response non-storable whenever its Cache-Control carries none of public,
must-revalidate and s-maxage. -/
theorem storable_shared_auth_needs_explicit (p : Spec.CachePolicy)
    (hsh : p.opts.shared = true)
    (hauth : (getHeader p.req.headers "authorization").isSome = true)
    (hpub : Spec.hasDir (Spec.rawRespCC p) "public" = false)
    (hmr : Spec.hasDir (Spec.rawRespCC p) "must-revalidate" = false)
    (hsm : Spec.hasDir (Spec.rawRespCC p) "s-maxage" = false) :
    Spec.is_storable p = false := by
  have h1 : Spec.hasDir (Spec.respCC p) "public" = false :=
    hasDir_respCC_false p _ hpub
  have h2 : Spec.hasDir (Spec.respCC p) "must-revalidate" = false :=
    hasDir_respCC_false p _ hmr
  have h3 : Spec.hasDir (Spec.respCC p) "s-maxage" = false :=
    hasDir_respCC_false p _ hsm
  unfold Spec.is_storable
  simp [hsh, hauth, h1, h2, h3]

/-- C2 witness. -/
theorem storable_shared_auth_needs_explicit_witness :
    Spec.is_storable (Spec.policy_for CacheOptions.default
      { method := "GET", uri := "/", headers := [("authorization", "test")] }
      { status := 200, headers := [("cache-control", "max-age=111")] }
      0) = false :=
  storable_shared_auth_needs_explicit _ (by decide) (by decide) (by decide)
    (by decide) (by decide)

/-- C3: with non-negative s-maxage and max-age both present and no
no-cache or no-store in play, a shared policy takes the s-maxage value
and a private policy ignores s-maxage and takes the max-age value. -/
theorem max_age_smaxage_shared_vs_private (p : Spec.CachePolicy) (S M : Nat)
    (hS : Spec.dirNat (Spec.rawRespCC p) "s-maxage" = some S)
    (hM : Spec.dirNat (Spec.rawRespCC p) "max-age" = some M)
    (hnc : Spec.hasDir (Spec.rawRespCC p) "no-cache" = false)
    (hns : Spec.hasDir (Spec.rawRespCC p) "no-store" = false)
    (hrq : Spec.hasDir (Spec.reqCC p) "no-cache" = false) :
    (p.opts.shared = true → Spec.max_age p = S)
  ∧ (p.opts.shared = false → Spec.max_age p = M) := by
  have h1 : Spec.hasDir (Spec.respCC p) "no-cache" = false :=
    hasDir_respCC_false p _ hnc
  have h2 : Spec.hasDir (Spec.respCC p) "no-store" = false :=
    hasDir_respCC_false p _ hns
  have hS2 : Spec.dirNat (Spec.respCC p) "s-maxage" = some S := by
    rw [dirNat_respCC_eq p _ (by decide)]
    exact hS
  have hM2 : Spec.dirNat (Spec.respCC p) "max-age" = some M := by
    rw [dirNat_respCC_eq p _ (by decide)]
    exact hM
  constructor
  · intro hsh
    unfold Spec.max_age Spec.explicitAge
    simp [h1, h2, hrq, hsh, hS2]
  · intro hsh
    unfold Spec.max_age Spec.explicitAge
    simp [h1, h2, hrq, hsh, hM2]

/-- C3 witness. -/
theorem max_age_smaxage_shared_vs_private_witness :
    Spec.max_age (Spec.policy_for CacheOptions.default
      { method := "GET", uri := "/", headers := [] }
      { status := 200,
        headers := [("cache-control", "s-maxage=60, max-age=180")] }
      0) = 60 :=
  (max_age_smaxage_shared_vs_private _ 60 180 (by decide) (by decide)
    (by decide) (by decide) (by decide)).1 (by decide)

/-- C4: when the response is immutable and freshness would otherwise
come from the heuristic, max_age is floored by the
immutable_min_time_to_live option, while an explicit lower max-age is
not raised: a response with Cache-Control max-age=0, immutable yields
max_age zero. -/
theorem immutable_floor_heuristic_only :
    (∀ p : Spec.CachePolicy,
        Spec.hasDir (Spec.rawRespCC p) "immutable" = true →
        Spec.hasDir (Spec.rawRespCC p) "no-cache" = false →
        Spec.hasDir (Spec.rawRespCC p) "no-store" = false →
        Spec.hasDir (Spec.reqCC p) "no-cache" = false →
        Spec.explicitAge p = none →
        getHeader p.resp.headers "expires" = none →
        (getHeader p.resp.headers "last-modified").isSome = true →
        p.opts.immutable_min_time_to_live ≤ Spec.max_age p)
  ∧ (∀ (p : Spec.CachePolicy) (n : Nat),
        Spec.hasDir (Spec.respCC p) "no-cache" = false →
        Spec.hasDir (Spec.respCC p) "no-store" = false →
        Spec.hasDir (Spec.reqCC p) "no-cache" = false →
        Spec.explicitAge p = some n →
        Spec.max_age p = n)
  ∧ Spec.max_age (Spec.policy_for CacheOptions.default
      { method := "GET", uri := "/", headers := [] }
      { status := 200, headers := [("cache-control", "max-age=0, immutable")] }
      0) = 0 := by
  refine ⟨?_, ?_, by decide⟩
  · intro p himm hnc hns hrq hexp hexpires hlm
    have h1 : Spec.hasDir (Spec.respCC p) "no-cache" = false :=
      hasDir_respCC_false p _ hnc
    have h2 : Spec.hasDir (Spec.respCC p) "no-store" = false :=
      hasDir_respCC_false p _ hns
    have himm2 : Spec.hasDir (Spec.respCC p) "immutable" = true := by
      rw [hasDir_respCC_eq p _ (by decide)]
      exact himm
    unfold Spec.max_age
    simp only [h1, h2, hrq, hexp, himm2, Bool.or_self, Bool.false_eq_true,
      if_false, if_true]
    exact Nat.le_max_right _ _
  · intro p n hnc hns hrq hexp
    unfold Spec.max_age
    simp [hnc, hns, hrq, hexp]

/-- C4 witness for the heuristic floor. -/
theorem immutable_floor_heuristic_only_witness :
    86400 ≤ Spec.max_age (Spec.policy_for CacheOptions.default
      { method := "GET", uri := "/", headers := [] }
      { status := 200,
        headers := [("cache-control", "immutable"), ("date", "1000"),
                    ("last-modified", "500")] }
      1000) :=
  immutable_floor_heuristic_only.1
    (Spec.policy_for CacheOptions.default
      { method := "GET", uri := "/", headers := [] }
      { status := 200,
        headers := [("cache-control", "immutable"), ("date", "1000"),
                    ("last-modified", "500")] }
      1000)
    (by decide) (by decide) (by decide)
    (by decide) (by decide) (by decide) (by decide)

/-- C5: a response whose Cache-Control carries must-revalidate is never
served once stale, whatever max-stale directive the new request
carries. -/
theorem must_revalidate_blocks_stale (p : Spec.CachePolicy)
    (nr : HttpRequest) (now : Int)
    (hmr : Spec.hasDir (Spec.rawRespCC p) "must-revalidate" = true)
    (hst : Spec.is_stale p now = true) :
    Spec.is_cached_response_fresh p nr now = false := by
  have hmr2 : Spec.hasDir (Spec.respCC p) "must-revalidate" = true := by
    rw [hasDir_respCC_eq p _ (by decide)]
    exact hmr
  have hmrv : Spec.mustRevalidate p = true := by
    unfold Spec.mustRevalidate
    rw [hmr2]
    rfl
  unfold Spec.is_cached_response_fresh
  simp [hst, hmrv]

/-- C5 witness: a stale must-revalidate response is rejected even for a
request that sends max-stale. -/
theorem must_revalidate_blocks_stale_witness :
    Spec.is_cached_response_fresh
      (Spec.policy_for CacheOptions.default
        { method := "GET", uri := "/", headers := [] }
        { status := 200,
          headers := [("cache-control", "max-age=0, must-revalidate"),
                      ("date", "0")] }
        0)
      { method := "GET", uri := "/",
        headers := [("cache-control", "max-stale=180")] }
      100 = false :=
  must_revalidate_blocks_stale _ _ _ (by decide) (by decide)

/-- C6: a stored Vary star entry forbids reuse for every new request,
while storability is unaffected by the Vary header. -/
theorem vary_star_blocks_reuse_not_storability (p : Spec.CachePolicy)
    (hstar : "*" ∈ Spec.varyFields p) :
    (∀ (nr : HttpRequest) (now : Int),
      Spec.is_cached_response_fresh p nr now = false)
  ∧ (∀ (opts : CacheOptions) (req : HttpRequest) (status : Nat)
       (hs : Headers) (v : String) (t : Int),
      Spec.is_storable
          (Spec.policy_for opts req ⟨status, ("vary", v) :: hs⟩ t)
        = Spec.is_storable
            (Spec.policy_for opts req ⟨status, hs⟩ t)) := by
  constructor
  · intro nr now
    have hv : Spec.varyOk p nr = false := by
      unfold Spec.varyOk
      cases hb : (Spec.varyFields p).all (fun f =>
          f != "*" && (getHeader nr.headers f == getHeader p.req.headers f)) with
      | false => rfl
      | true =>
        have := List.all_eq_true.mp hb "*" hstar
        simp at this
    unfold Spec.is_cached_response_fresh
    simp [hv]
  · intro opts req status hs v t
    have e1 : getHeader (("vary", v) :: hs) "cache-control"
        = getHeader hs "cache-control" := getHeader_cons_ne _ _ _ _ (by decide)
    have e2 : getHeader (("vary", v) :: hs) "expires"
        = getHeader hs "expires" := getHeader_cons_ne _ _ _ _ (by decide)
    have e3 : getHeader (("vary", v) :: hs) "set-cookie"
        = getHeader hs "set-cookie" := getHeader_cons_ne _ _ _ _ (by decide)
    simp only [Spec.is_storable, Spec.methodStorable, Spec.hasExplicit,
      Spec.respCC, Spec.cargoCultFired, Spec.rawRespCC, Spec.reqCC,
      Spec.policy_for, e1, e2, e3]

/-- C6 witness. -/
theorem vary_star_blocks_reuse_not_storability_witness :
    Spec.is_cached_response_fresh
      (Spec.policy_for CacheOptions.default
        { method := "GET", uri := "/", headers := [("weather", "nice")] }
        { status := 200,
          headers := [("cache-control", "max-age=99"), ("vary", "*")] }
        0)
      { method := "GET", uri := "/", headers := [("weather", "nice")] }
      0 = false :=
  (vary_star_blocks_reuse_not_storability _ (by decide)).1 _ 0

/-- C7: for an unsafe new request method, when validators are emitted
the If-None-Match value is the merge of the request entries with the
stored entity tag with every weak tag removed, and the header is absent
when that removal leaves nothing. -/
theorem unsafe_revalidation_filters_weak_tags (p : Spec.CachePolicy)
    (nr : HttpRequest)
    (hm : Spec.UNSAFE_METHODS.contains nr.method = true)
    (hv : Spec.validatorsAllowed p nr = true) :
    getHeader (Spec.revalidation_headers p nr) "if-none-match" =
      (if ((Spec.reqEtags nr ++ Spec.storedEtag p).filter
            (fun t => !(Spec.isWeakTag t))).isEmpty = true
       then none
       else some (String.intercalate ", "
         ((Spec.reqEtags nr ++ Spec.storedEtag p).filter
            (fun t => !(Spec.isWeakTag t))))) := by
  have htags : Spec.mergedEtags p nr
      = (Spec.reqEtags nr ++ Spec.storedEtag p).filter
          (fun t => !(Spec.isWeakTag t)) := by
    unfold Spec.mergedEtags
    rw [if_pos hm]
  have hbase2 : getHeader (Spec.strippedBase2 nr) "if-none-match" = none :=
    getHeader_filter_neg _ _ _ (fun h hh => by simp only [hh]; rfl)
  have hims : getHeader (Spec.imsPart p nr) "if-none-match" = none := by
    unfold Spec.imsPart
    split
    · split
      · rfl
      · rfl
    · rfl
  unfold Spec.revalidation_headers
  rw [hv]
  rw [if_neg (show ¬ ((!true) = true) by decide)]
  simp only [getHeader_append, hbase2, hims]
  unfold Spec.inmPart
  rw [htags]
  by_cases hemp : ((Spec.reqEtags nr ++ Spec.storedEtag p).filter
      (fun t => !(Spec.isWeakTag t))).isEmpty = true
  · rw [if_pos hemp, if_pos hemp]
    rfl
  · rw [if_neg hemp, if_neg hemp]
    rfl

/-- C7 witness: a POST revalidation drops weak tags from the merged
If-None-Match set. -/
theorem unsafe_revalidation_filters_weak_tags_witness :
    getHeader (Spec.revalidation_headers
      (Spec.policy_for CacheOptions.default
        { method := "POST", uri := "/x",
          headers := [("host", "www.w3c.org"), ("connection", "close"),
            ("if-none-match", "W/\"weak\", \"strong\", W/\"weak2\"")] }
        { status := 200,
          headers := [("cache-control", "max-age=111"),
            ("last-modified", "7"), ("etag", "\"123456789\"")] }
        0)
      { method := "POST", uri := "/x",
        headers := [("host", "www.w3c.org"), ("connection", "close"),
          ("if-none-match", "W/\"weak\", \"strong\", W/\"weak2\"")] })
      "if-none-match" = some "\"strong\", \"123456789\"" :=
  (unsafe_revalidation_filters_weak_tags
    (Spec.policy_for CacheOptions.default
      { method := "POST", uri := "/x",
        headers := [("host", "www.w3c.org"), ("connection", "close"),
          ("if-none-match", "W/\"weak\", \"strong\", W/\"weak2\"")] }
      { status := 200,
        headers := [("cache-control", "max-age=111"),
          ("last-modified", "7"), ("etag", "\"123456789\"")] }
      0)
    { method := "POST", uri := "/x",
      headers := [("host", "www.w3c.org"), ("connection", "close"),
        ("if-none-match", "W/\"weak\", \"strong\", W/\"weak2\"")] }
    (by decide) (by decide)).trans (by decide)

/-- C8: evaluation of the projected headers at a stored response that
carries a Proxy-Authenticate header: the header survives, because the
hop-by-hop table in src spells the entry proxy-authentication, so the
claimed stripping of Proxy-Authenticate does not happen. -/
theorem proxy_authenticate_survives_projection :
    getHeader (Spec.response_headers (Spec.policy_for CacheOptions.default
      { method := "GET", uri := "/", headers := [] }
      { status := 200,
        headers := [("proxy-authenticate", "basic"),
                    ("cache-control", "max-age=60")] }
      0) 0) "proxy-authenticate" = some "basic" := by
  decide

/-- C9: when a 304 revalidation is accepted, every non-excluded header
of the updated policy takes the 304 value when the 304 carried it and
keeps the stored value otherwise, while excluded headers keep their
stored values. -/
theorem revalidation_merge_law (p : Spec.CachePolicy)
    (new_request : HttpRequest) (cached_response : HttpResponse)
    (new_response : HttpResponse) (now : Int) (n : String)
    (h : (Spec.is_cached_response_valid p new_request cached_response
            new_response now).1 = true) :
    getHeader (Spec.is_cached_response_valid p new_request cached_response
        new_response now).2.resp.headers n =
      if EXCLUDED_FROM_REVALIDATION_UPDATE.contains n = true
      then getHeader p.resp.headers n
      else
        match getHeader new_response.headers n with
        | some v => some v
        | none => getHeader p.resp.headers n := by
  unfold Spec.is_cached_response_valid at h ⊢
  by_cases hc : (new_response.status == 304
      && Spec.validatorsMatch cached_response new_response) = true
  · rw [if_pos hc]
    exact getHeader_mergeHeaders p.resp.headers new_response.headers n
  · rw [if_neg hc] at h
    simp at h

/-- C9 witness: a non-excluded header present in the 304 is overwritten
in the updated policy. -/
theorem revalidation_merge_law_witness :
    getHeader (Spec.is_cached_response_valid
      (Spec.policy_for CacheOptions.default
        { method := "GET", uri := "/", headers := [] }
        { status := 200,
          headers := [("cache-control", "max-age=111"), ("etag", "\"a\""),
            ("foo", "original"), ("content-length", "10")] }
        0)
      { method := "GET", uri := "/", headers := [] }
      { status := 200,
        headers := [("cache-control", "max-age=111"), ("etag", "\"a\""),
          ("foo", "original"), ("content-length", "10")] }
      { status := 304,
        headers := [("etag", "\"a\""), ("foo", "updated"),
          ("content-length", "99")] }
      5).2.resp.headers "foo" = some "updated" :=
  (revalidation_merge_law
    (Spec.policy_for CacheOptions.default
      { method := "GET", uri := "/", headers := [] }
      { status := 200,
        headers := [("cache-control", "max-age=111"), ("etag", "\"a\""),
          ("foo", "original"), ("content-length", "10")] }
      0)
    { method := "GET", uri := "/", headers := [] }
    { status := 200,
      headers := [("cache-control", "max-age=111"), ("etag", "\"a\""),
        ("foo", "original"), ("content-length", "10")] }
    { status := 304,
      headers := [("etag", "\"a\""), ("foo", "updated"),
        ("content-length", "99")] }
    5 "foo" (by decide)).trans (by decide)
